import Mathlib

/-!
Shallow embedding of the agentic order-management backend
(src/backend/agents: order_agent.py, inventory_agent.py, status_agent.py,
admin_agent.py; data model from src/backend/models.py).

Modelling conventions:
* Python float money values (price, total_amount) are modelled as rationals.
* Python int quantities (stock_quantity, quantity) are modelled as Int.
* ISO timestamps are opaque strings supplied by the caller of each operation.
* In-place mutation of a dict found by `next(...)` over a list is modelled by
  replacing the first list element with the matching key.
* The nondeterministic LLM call is a parameter: each agent method's
  deterministic part takes the extracted structured response as input.
-/

/-- Product record (models.py `Product`). -/
structure Product where
  product_id : String
  name : String
  description : String
  category : String
  price : ℚ
  stock_quantity : Int
  unit : String
deriving Repr, DecidableEq

/-- Order line item (models.py `OrderItem`). -/
structure OrderItem where
  product_id : String
  product_name : String
  quantity : Int
  unit_price : ℚ
  total_price : ℚ
deriving Repr, DecidableEq

/-- Order record (models.py `Order`). -/
structure Order where
  order_id : String
  user_id : String
  items : List OrderItem
  total_amount : ℚ
  status : String
  created_at : String
  updated_at : String
deriving Repr, DecidableEq

/-- `next((p for p in products_data if p["product_id"] == product_id), None)`. -/
def findProduct : List Product → String → Option Product
  | [], _ => none
  | p :: ps, product_id =>
    if p.product_id == product_id then some p else findProduct ps product_id

/-- In-place mutation of the first product with the given id: set its
`stock_quantity` to `q` (the Python code mutates the dict returned by `next`). -/
def setStockFirst (product_id : String) (q : Int) : List Product → List Product
  | [] => []
  | p :: ps =>
    if p.product_id == product_id then { p with stock_quantity := q } :: ps
    else p :: setStockFirst product_id q ps

/-- Result of `InventoryAgent.update_stock`. -/
structure StockUpdateResult where
  success : Bool
  message : String
deriving Repr, DecidableEq

/-- `InventoryAgent.update_stock(product_id, quantity_change)`
(inventory_agent.py lines 112-148): not found fails; a new quantity below zero
fails without mutation; otherwise the product's stock is set to the new
quantity.  Returns the result together with the catalog after the call. -/
def update_stock (products_data : List Product) (product_id : String)
    (quantity_change : Int) : StockUpdateResult × List Product :=
  match findProduct products_data product_id with
  | none => (⟨false, "Product not found"⟩, products_data)
  | some product =>
    let new_quantity := product.stock_quantity + quantity_change
    if new_quantity < 0 then
      (⟨false, "Cannot reduce stock below zero"⟩, products_data)
    else
      (⟨true, "Stock updated"⟩, setStockFirst product_id new_quantity products_data)

/-- Python `round(x, 2)` uses round-half-to-even; `roundHalfEven` is that
rounding to an integer, on rationals. -/
def roundHalfEven (q : ℚ) : ℤ :=
  if Int.fract q < 1/2 then ⌊q⌋
  else if 1/2 < Int.fract q then ⌊q⌋ + 1
  else if ⌊q⌋ % 2 = 0 then ⌊q⌋ else ⌊q⌋ + 1

/-- `round(x, 2)`: round to 2 decimal places. -/
def round2 (q : ℚ) : ℚ := (roundHalfEven (q * 100) : ℚ) / 100

/-- One entry of the `products` list extracted from the LLM response in
`OrderProcessingAgent.process_order`. -/
structure ProductReq where
  product_id : String
  quantity : Int
deriving Repr, DecidableEq

/-- The structured order data extracted from the LLM response (`order_data`). -/
structure ExtractedOrder where
  success : Bool
  products : List ProductReq
  message : String
deriving Repr, DecidableEq

/-- Return value of `OrderProcessingAgent.process_order`. -/
structure OrderResult where
  success : Bool
  message : String
  order_id : Option String
  order_details : Option Order
deriving Repr, DecidableEq

/-- One iteration of the `for product_req in order_data.get("products", [])`
loop of `process_order` (order_agent.py lines 187-217), acting on the state
(accumulated `order_items`, accumulated `total_amount`, catalog): an unknown
product is skipped; otherwise an OrderItem snapshot is appended, the item total
is accumulated, and the product's stock is decremented with no check. -/
def orderLoopStep (st : List OrderItem × ℚ × List Product) (req : ProductReq) :
    List OrderItem × ℚ × List Product :=
  match findProduct st.2.2 req.product_id with
  | none => st
  | some product =>
    (st.1 ++ [⟨product.product_id, product.name, req.quantity, product.price,
               (req.quantity : ℚ) * product.price⟩],
     st.2.1 + (req.quantity : ℚ) * product.price,
     setStockFirst product.product_id (product.stock_quantity - req.quantity) st.2.2)

/-- The deterministic part of `OrderProcessingAgent.process_order`
(order_agent.py lines 166-247), given the extracted `order_data` and the
generated `order_id` and `timestamp`.  Returns the result together with the
catalog and the ledger after the call. -/
def process_order (products_data : List Product) (orders_data : List Order)
    (order_data : ExtractedOrder) (user_id order_id timestamp : String) :
    OrderResult × List Product × List Order :=
  if order_data.success = false then
    (⟨false, order_data.message, none, none⟩, products_data, orders_data)
  else if order_data.products = [] then
    (⟨false, order_data.message, none, none⟩, products_data, orders_data)
  else
    let loop := order_data.products.foldl orderLoopStep ([], 0, products_data)
    if loop.1 = [] ∨ loop.2.1 = 0 then
      (⟨false, "Could not create order. Please specify valid products and quantities.",
        none, none⟩, loop.2.2, orders_data)
    else
      let order : Order := ⟨order_id, user_id, loop.1, round2 loop.2.1, "pending",
                            timestamp, timestamp⟩
      (⟨true, order_data.message, some order_id, some order⟩,
       loop.2.2, orders_data ++ [order])

/-- `[order for order in orders_data if order["user_id"] == user_id]`. -/
def get_user_orders (orders_data : List Order) (user_id : String) : List Order :=
  orders_data.filter (fun o => o.user_id == user_id)

/-- `next((o for o in orders_data if o["order_id"] == order_id), None)`. -/
def get_order_by_id : List Order → String → Option Order
  | [], _ => none
  | o :: os, order_id =>
    if o.order_id == order_id then some o else get_order_by_id os order_id

/-- The five valid order statuses (status_agent.py line 234). -/
def valid_statuses : List String :=
  ["pending", "processing", "shipped", "delivered", "cancelled"]

/-- In-place mutation of the first order with the given id: set `status` and
`updated_at` (the Python code mutates the dict returned by `get_order_by_id`). -/
def setStatusFirst (order_id new_status now : String) : List Order → List Order
  | [] => []
  | o :: os =>
    if o.order_id == order_id then { o with status := new_status, updated_at := now } :: os
    else o :: setStatusFirst order_id new_status now os

/-- `StatusTrackingAgent.update_order_status(order_id, new_status)`
(status_agent.py lines 224-248), with the current time as a parameter.
Returns the success flag together with the ledger after the call. -/
def update_order_status (orders_data : List Order) (order_id new_status now : String) :
    Bool × List Order :=
  match get_order_by_id orders_data order_id with
  | none => (false, orders_data)
  | some _ =>
    if new_status ∈ valid_statuses then
      (true, setStatusFirst order_id new_status now orders_data)
    else
      (false, orders_data)

/-- The order-resolution step of `StatusTrackingAgent.handle_status_query`
(status_agent.py lines 171-182): resolve each extracted order id against the
whole ledger, and if none resolves, fall back to all of the user's orders. -/
def resolveStatusOrders (orders_data : List Order) (user_id : String)
    (order_ids : List String) : List Order :=
  let relevant_orders := order_ids.filterMap (fun oid => get_order_by_id orders_data oid)
  if relevant_orders = [] then get_user_orders orders_data user_id else relevant_orders

/-- Sum over items of `quantity × unit_price` (the quantity-price products
captured at order creation). -/
def sumQP (items : List OrderItem) : ℚ :=
  (items.map (fun it => (it.quantity : ℚ) * it.unit_price)).sum

/-- All fields of an order except `updated_at` (the only field
`update_order_status` refreshes on a repeated identical update). -/
def orderCore (o : Order) : String × String × List OrderItem × ℚ × String × String :=
  (o.order_id, o.user_id, o.items, o.total_amount, o.status, o.created_at)

/-- The revenue computation of `AdminAgent.generate_analytics` (admin_agent.py
lines 65-72 and 119): accumulate `total_amount` over all orders regardless of
status, then round to 2 decimals for the report. -/
def total_revenue (orders_data : List Order) : ℚ :=
  round2 (orders_data.foldl (fun acc o => acc + o.total_amount) 0)

/-- `product_sales[product_id] = product_sales.get(product_id, 0) + quantity`
on an insertion-ordered dict modelled as an association list: updating an
existing key keeps its position, a new key is appended. -/
def addSale (product_id : String) (quantity : Int) :
    List (String × Int) → List (String × Int)
  | [] => [(product_id, quantity)]
  | (p, q) :: rest =>
    if p == product_id then (p, q + quantity) :: rest
    else (p, q) :: addSale product_id quantity rest

/-- The `product_sales` dict of `AdminAgent.generate_analytics` (admin_agent.py
lines 84-89): total quantity per product id over all orders' line items, keys
in order of first appearance. -/
def product_sales (orders_data : List Order) : List (String × Int) :=
  orders_data.foldl
    (fun acc o => o.items.foldl (fun acc2 it => addSale it.product_id it.quantity acc2) acc)
    []

/-- Insertion step of a stable descending sort by the Int component: the new
element goes before the first strictly smaller entry, hence after all entries
with an equal or larger key — exactly Python's stable
`sorted(..., key=..., reverse=True)` applied left to right. -/
def insertDesc (x : String × Int) : List (String × Int) → List (String × Int)
  | [] => [x]
  | y :: ys => if y.2 < x.2 then x :: y :: ys else y :: insertDesc x ys

/-- Stable descending sort by the Int component (Python
`sorted(product_sales.items(), key=lambda x: x[1], reverse=True)`). -/
def sortDesc (l : List (String × Int)) : List (String × Int) :=
  l.foldl (fun acc x => insertDesc x acc) []

/-- One entry of the `top_selling_products` analytics list. -/
structure TopProduct where
  product_id : String
  name : String
  quantity_sold : Int
  revenue : ℚ
deriving Repr, DecidableEq

/-- `top_selling_products` of `AdminAgent.generate_analytics` (admin_agent.py
lines 91-110): sort the sales dict descending by quantity (stable), cap at 5,
then drop entries whose product no longer exists in the catalog. -/
def top_selling_products (products_data : List Product) (orders_data : List Order) :
    List TopProduct :=
  ((sortDesc (product_sales orders_data)).take 5).filterMap (fun pq =>
    match findProduct products_data pq.1 with
    | none => none
    | some p => some ⟨pq.1, p.name, pq.2, (pq.2 : ℚ) * p.price⟩)

/-- All line items across the ledger, in order. -/
def allItems (orders_data : List Order) : List OrderItem :=
  (orders_data.map (fun o => o.items)).flatten

/-- The product ids of all line items across the ledger, in order. -/
def allItemPids (orders_data : List Order) : List String :=
  (allItems orders_data).map (fun it => it.product_id)

/-- Keep the first occurrence of each element, in order of first appearance. -/
def firstAppearanceKeys (pids : List String) : List String :=
  pids.foldl (fun ks pid => if pid ∈ ks then ks else ks ++ [pid]) []

/-- Index of a string in a list (length of the list if absent). -/
def idxOfStr (pid : String) : List String → Nat
  | [] => 0
  | k :: ks => if k == pid then 0 else idxOfStr pid ks + 1

/-- Rank of a product id by first appearance among the ledger's line items. -/
def faIdx (orders_data : List Order) (pid : String) : Nat :=
  idxOfStr pid (firstAppearanceKeys (allItemPids orders_data))

/-- Total quantity of a product across all orders' line items. -/
def totalQtySold (orders_data : List Order) (pid : String) : Int :=
  (((allItems orders_data).filter (fun it => it.product_id == pid)).map
    (fun it => it.quantity)).sum

/-- Sum of the Int components of association-list entries with the given key. -/
def assocSum (l : List (String × Int)) (pid : String) : Int :=
  ((l.filter (fun x => x.1 == pid)).map (fun x => x.2)).sum

/-- JSON values as produced by `json.loads` (numbers as rationals, object
members in textual order). -/
inductive Json where
  | null : Json
  | bool : Bool → Json
  | num : ℚ → Json
  | str : List Char → Json
  | arr : List Json → Json
  | obj : List (List Char × Json) → Json

/-- Skip JSON whitespace (space, tab, newline, carriage return). -/
def skipWs : List Char → List Char
  | [] => []
  | c :: cs => if c = ' ' ∨ c = '\t' ∨ c = '\n' ∨ c = '\r' then skipWs cs else c :: cs

/-- Value of a hex digit. -/
def hexVal (c : Char) : Option Nat :=
  if '0' ≤ c ∧ c ≤ '9' then some (c.toNat - 48)
  else if 'a' ≤ c ∧ c ≤ 'f' then some (c.toNat - 87)
  else if 'A' ≤ c ∧ c ≤ 'F' then some (c.toNat - 55)
  else none

/-- The single-character JSON escapes. -/
def escChar (e : Char) : Option Char :=
  if e = '"' then some '"'
  else if e = '\\' then some '\\'
  else if e = '/' then some '/'
  else if e = 'b' then some '\x08'
  else if e = 'f' then some '\x0c'
  else if e = 'n' then some '\n'
  else if e = 'r' then some '\x0d'
  else if e = 't' then some '\t'
  else none

/-- Parse the remainder of a JSON string literal (after the opening quote):
returns the content and the input after the closing quote.  Handles the JSON
escapes and rejects unescaped control characters, as `json.loads` does. -/
def parseStringRest : List Char → Option (List Char × List Char)
  | [] => none
  | '"' :: rest => some ([], rest)
  | '\\' :: 'u' :: h1 :: h2 :: h3 :: h4 :: rest =>
    (match hexVal h1, hexVal h2, hexVal h3, hexVal h4 with
     | some a, some b, some c, some d =>
       (parseStringRest rest).map
         (fun (s, r) => (Char.ofNat (((a * 16 + b) * 16 + c) * 16 + d) :: s, r))
     | _, _, _, _ => none)
  | '\\' :: e :: rest =>
    (match escChar e with
     | some c => (parseStringRest rest).map (fun (s, r) => (c :: s, r))
     | none => none)
  | c :: rest =>
    if c.toNat < 32 then none
    else (parseStringRest rest).map (fun (s, r) => (c :: s, r))

/-- Take a maximal run of decimal digits. -/
def takeDigits : List Char → List Char × List Char
  | [] => ([], [])
  | c :: cs =>
    if c.isDigit then
      let (ds, r) := takeDigits cs
      (c :: ds, r)
    else ([], c :: cs)

/-- Decimal digits to a natural number. -/
def digitsToNat (ds : List Char) : Nat :=
  ds.foldl (fun n c => n * 10 + (c.toNat - 48)) 0

/-- Parse an optional JSON fraction part (empty fraction is an error). -/
def parseFrac : List Char → Option (ℚ × List Char)
  | '.' :: r =>
    let (fds, r2) := takeDigits r
    if fds.isEmpty then none
    else some ((digitsToNat fds : ℚ) / ((10 : ℚ) ^ fds.length), r2)
  | cs => some (0, cs)

/-- Parse an optional JSON exponent part (empty exponent is an error). -/
def parseExp : List Char → Option (ℤ × List Char)
  | c :: r =>
    if c = 'e' ∨ c = 'E' then
      let (sgn, r1) : Bool × List Char :=
        match r with
        | '+' :: rr => (false, rr)
        | '-' :: rr => (true, rr)
        | _ => (false, r)
      let (eds, r2) := takeDigits r1
      if eds.isEmpty then none
      else some ((if sgn then -(digitsToNat eds : ℤ) else (digitsToNat eds : ℤ)), r2)
    else some (0, c :: r)
  | [] => some (0, [])

/-- Parse a JSON number (optional minus, integer part without leading zeros,
optional fraction and exponent). -/
def parseNumber (cs : List Char) : Option (ℚ × List Char) :=
  let (neg, cs1) : Bool × List Char :=
    match cs with
    | '-' :: r => (true, r)
    | _ => (false, cs)
  let (ids, cs2) := takeDigits cs1
  if ids.isEmpty then none
  else if 1 < ids.length ∧ ids.headD 'x' = '0' then none
  else
    match parseFrac cs2 with
    | none => none
    | some (f, cs3) =>
      match parseExp cs3 with
      | none => none
      | some (e, cs4) =>
        let mag : ℚ := ((digitsToNat ids : ℚ) + f) * (10 : ℚ) ^ e
        some ((if neg then -mag else mag), cs4)

mutual

/-- Parse one JSON value after skipping leading whitespace, fuel-bounded
(the fuel only bounds nesting; `json_loads` supplies enough for any input). -/
def parseValue : Nat → List Char → Option (Json × List Char)
  | 0, _ => none
  | fuel + 1, cs =>
    match skipWs cs with
    | 't' :: 'r' :: 'u' :: 'e' :: rest => some (Json.bool true, rest)
    | 'f' :: 'a' :: 'l' :: 's' :: 'e' :: rest => some (Json.bool false, rest)
    | 'n' :: 'u' :: 'l' :: 'l' :: rest => some (Json.null, rest)
    | '"' :: rest => (parseStringRest rest).map (fun (s, r) => (Json.str s, r))
    | '[' :: rest =>
      (match skipWs rest with
       | ']' :: r2 => some (Json.arr [], r2)
       | _ => (parseElements fuel rest).map (fun (vs, r) => (Json.arr vs, r)))
    | '\x7b' :: rest =>
      (match skipWs rest with
       | '\x7d' :: r2 => some (Json.obj [], r2)
       | _ => (parseMembers fuel rest).map (fun (ms, r) => (Json.obj ms, r)))
    | c :: rest =>
      if c = '-' ∨ c.isDigit then
        (parseNumber (c :: rest)).map (fun (q, r) => (Json.num q, r))
      else none
    | [] => none

/-- Parse one or more comma-separated JSON object members up to the closing
brace. -/
def parseMembers : Nat → List Char → Option (List (List Char × Json) × List Char)
  | 0, _ => none
  | fuel + 1, cs =>
    match skipWs cs with
    | '"' :: rest =>
      (match parseStringRest rest with
       | none => none
       | some (key, r1) =>
         match skipWs r1 with
         | ':' :: r2 =>
           (match parseValue fuel r2 with
            | none => none
            | some (v, r3) =>
              match skipWs r3 with
              | ',' :: r4 => (parseMembers fuel r4).map (fun (ms, r) => ((key, v) :: ms, r))
              | '\x7d' :: r4 => some ([(key, v)], r4)
              | _ => none)
         | _ => none)
    | _ => none

/-- Parse one or more comma-separated JSON array elements up to the closing
bracket. -/
def parseElements : Nat → List Char → Option (List Json × List Char)
  | 0, _ => none
  | fuel + 1, cs =>
    match parseValue fuel cs with
    | none => none
    | some (v, rest) =>
      match skipWs rest with
      | ',' :: r2 => (parseElements fuel r2).map (fun (vs, r) => (v :: vs, r))
      | ']' :: r2 => some ([v], r2)
      | _ => none

end

/-- Model of Python `json.loads` on a character list: parse one value and
require only whitespace to remain (strict mode). -/
def json_loads (s : List Char) : Option Json :=
  match parseValue (2 * s.length + 2) s with
  | none => none
  | some (v, rest) => if skipWs rest = [] then some v else none

/-- Longest prefix of the input ending at its last `\x7d`, if any. -/
def takeToLastClose : List Char → Option (List Char)
  | [] => none
  | c :: cs =>
    match takeToLastClose cs with
    | some rest => some (c :: rest)
    | none => if c = '\x7d' then some [c] else none

/-- Model of `re.search(r'\x7b.*\x7d', s, re.DOTALL).group()`: the substring
from the first `\x7b` that is followed by a `\x7d` up to the last `\x7d` of the
whole input (greedy `.*` with DOTALL spans newlines). -/
def bracedSubstring : List Char → Option (List Char)
  | [] => none
  | c :: cs =>
    if c = '\x7b' then
      match takeToLastClose cs with
      | some content => some ('\x7b' :: content)
      | none => bracedSubstring cs
    else bracedSubstring cs

/-- The response-extraction chain shared by the agents (order_agent.py lines
145-164, status_agent.py lines 149-169, admin_agent.py lines 300-321):
`json.loads` on the raw text, else `json.loads` on the regex-extracted braced
substring, else `none` (the caller then uses its deterministic fallback). -/
def extract_json (raw : List Char) : Option Json :=
  match json_loads raw with
  | some v => some v
  | none =>
    match bracedSubstring raw with
    | some sub => json_loads sub
    | none => none

lemma findProduct_setStockFirst_self {ps : List Product} {pid : String} {p : Product}
    (h : findProduct ps pid = some p) (q : Int) :
    findProduct (setStockFirst pid q ps) pid = some { p with stock_quantity := q } := by
  induction ps with
  | nil => simp [findProduct] at h
  | cons a as ih =>
    by_cases ha : (a.product_id == pid) = true
    · simp only [findProduct, ha, if_true] at h
      cases h
      simp [setStockFirst, findProduct, ha]
    · simp only [findProduct, ha, if_false, Bool.false_eq_true] at h
      simp [setStockFirst, findProduct, ha, ih h]

lemma mem_setStockFirst {ps : List Product} {pid : String} {q : Int} {x : Product}
    (hx : x ∈ setStockFirst pid q ps) :
    x ∈ ps ∨ ∃ p ∈ ps, x = { p with stock_quantity := q } := by
  induction ps with
  | nil => simp [setStockFirst] at hx
  | cons a as ih =>
    by_cases ha : (a.product_id == pid) = true
    · simp only [setStockFirst, ha, if_true] at hx
      rcases List.mem_cons.mp hx with hxa | hxl
      · exact Or.inr ⟨a, List.mem_cons_self a as, hxa⟩
      · exact Or.inl (List.mem_cons_of_mem _ hxl)
    · simp only [setStockFirst, ha, if_false, Bool.false_eq_true] at hx
      rcases List.mem_cons.mp hx with hxa | hxl
      · exact Or.inl (by simp [hxa])
      · rcases ih hxl with h | ⟨p, hp, hxp⟩
        · exact Or.inl (List.mem_cons_of_mem _ h)
        · exact Or.inr ⟨p, List.mem_cons_of_mem _ hp, hxp⟩

/-- C3: For every catalog, product id and integer delta: if the product is found
and `stock_quantity + delta ≥ 0`, `update_stock` succeeds and the catalog holds
the product with quantity `existing + delta` in place; if `existing + delta < 0`
it fails and the catalog is unchanged; if the id is unknown it fails and the
catalog is unchanged. -/
theorem update_stock_spec (products_data : List Product) (product_id : String)
    (delta : Int) :
    (∀ p, findProduct products_data product_id = some p →
      (0 ≤ p.stock_quantity + delta →
        (update_stock products_data product_id delta).1.success = true ∧
        (update_stock products_data product_id delta).2 =
          setStockFirst product_id (p.stock_quantity + delta) products_data ∧
        findProduct (update_stock products_data product_id delta).2 product_id =
          some { p with stock_quantity := p.stock_quantity + delta }) ∧
      (p.stock_quantity + delta < 0 →
        (update_stock products_data product_id delta).1.success = false ∧
        (update_stock products_data product_id delta).2 = products_data)) ∧
    (findProduct products_data product_id = none →
      (update_stock products_data product_id delta).1.success = false ∧
      (update_stock products_data product_id delta).2 = products_data) := by
  constructor
  · intro p hp
    constructor
    · intro hge
      have hlt : ¬ (p.stock_quantity + delta < 0) := not_lt.mpr hge
      refine ⟨?_, ?_, ?_⟩
      · simp [update_stock, hp, hlt]
      · simp [update_stock, hp, hlt]
      · have h2 : (update_stock products_data product_id delta).2 =
            setStockFirst product_id (p.stock_quantity + delta) products_data := by
          simp [update_stock, hp, hlt]
        rw [h2]
        exact findProduct_setStockFirst_self hp _
    · intro hlt
      constructor
      · simp [update_stock, hp, hlt]
      · simp [update_stock, hp, hlt]
  · intro hnone
    constructor
    · simp [update_stock, hnone]
    · simp [update_stock, hnone]

/-- Witness for C3: a concrete catalog exercising success, insufficient stock,
and unknown id. -/
theorem update_stock_spec_witness :
    ((update_stock [⟨"p1", "Widget", "", "tools", 2, 10, "pcs"⟩] "p1" (-4)).1.success = true ∧
     (update_stock [⟨"p1", "Widget", "", "tools", 2, 10, "pcs"⟩] "p1" (-4)).2 =
       [⟨"p1", "Widget", "", "tools", 2, 6, "pcs"⟩]) ∧
    ((update_stock [⟨"p1", "Widget", "", "tools", 2, 10, "pcs"⟩] "p1" (-11)).1.success = false ∧
     (update_stock [⟨"p1", "Widget", "", "tools", 2, 10, "pcs"⟩] "p1" (-11)).2 =
       [⟨"p1", "Widget", "", "tools", 2, 10, "pcs"⟩]) ∧
    ((update_stock [⟨"p1", "Widget", "", "tools", 2, 10, "pcs"⟩] "zzz" 5).1.success = false ∧
     (update_stock [⟨"p1", "Widget", "", "tools", 2, 10, "pcs"⟩] "zzz" 5).2 =
       [⟨"p1", "Widget", "", "tools", 2, 10, "pcs"⟩]) := by
  refine ⟨⟨?_, ?_⟩, ⟨?_, ?_⟩, ?_⟩
  · exact (((update_stock_spec [⟨"p1", "Widget", "", "tools", 2, 10, "pcs"⟩] "p1" (-4)).1
      ⟨"p1", "Widget", "", "tools", 2, 10, "pcs"⟩ (by decide)).1 (by decide)).1
  · have h := (((update_stock_spec [⟨"p1", "Widget", "", "tools", 2, 10, "pcs"⟩] "p1" (-4)).1
      ⟨"p1", "Widget", "", "tools", 2, 10, "pcs"⟩ (by decide)).1 (by decide)).2.1
    rw [h]; decide
  · exact (((update_stock_spec [⟨"p1", "Widget", "", "tools", 2, 10, "pcs"⟩] "p1" (-11)).1
      ⟨"p1", "Widget", "", "tools", 2, 10, "pcs"⟩ (by decide)).2 (by decide)).1
  · exact (((update_stock_spec [⟨"p1", "Widget", "", "tools", 2, 10, "pcs"⟩] "p1" (-11)).1
      ⟨"p1", "Widget", "", "tools", 2, 10, "pcs"⟩ (by decide)).2 (by decide)).2
  · exact (update_stock_spec [⟨"p1", "Widget", "", "tools", 2, 10, "pcs"⟩] "zzz" 5).2 (by decide)

lemma orderLoop_total_sub_sumQP (reqs : List ProductReq) :
    ∀ st : List OrderItem × ℚ × List Product,
      (reqs.foldl orderLoopStep st).2.1 - sumQP (reqs.foldl orderLoopStep st).1 =
        st.2.1 - sumQP st.1 := by
  induction reqs with
  | nil => intro st; simp
  | cons r rs ih =>
    intro st
    rw [List.foldl_cons, ih]
    rcases st with ⟨items, total, catalog⟩
    unfold orderLoopStep
    cases h : findProduct catalog r.product_id with
    | none => simp
    | some p =>
      simp only [sumQP, List.map_append, List.sum_append, List.map_cons, List.map_nil,
        List.sum_cons, List.sum_nil]
      ring

/-- C2: In `process_order`, when the extracted intent succeeds with a non-empty
product list but after the item loop no item was added or the accumulated total
is 0, the call fails, no order is appended to the ledger, and the catalog is
left exactly as the loop decremented it (no rollback). -/
theorem process_order_abort_no_rollback (products_data : List Product)
    (orders_data : List Order) (order_data : ExtractedOrder)
    (user_id order_id timestamp : String)
    (hs : order_data.success = true) (hp : order_data.products ≠ [])
    (habort : (order_data.products.foldl orderLoopStep ([], 0, products_data)).1 = [] ∨
              (order_data.products.foldl orderLoopStep ([], 0, products_data)).2.1 = 0) :
    (process_order products_data orders_data order_data user_id order_id timestamp).1.success
      = false ∧
    (process_order products_data orders_data order_data user_id order_id timestamp).1.order_details
      = none ∧
    (process_order products_data orders_data order_data user_id order_id timestamp).2.2
      = orders_data ∧
    (process_order products_data orders_data order_data user_id order_id timestamp).2.1
      = (order_data.products.foldl orderLoopStep ([], 0, products_data)).2.2 := by
  refine ⟨?_, ?_, ?_, ?_⟩ <;> simp [process_order, hs, hp, habort]

/-- Witness for C2: one recognized line with price 0 makes the loop run (stock
is decremented from 5 to 3) yet the total is 0, so the order is aborted while
the catalog keeps the decrement. -/
theorem process_order_abort_no_rollback_witness :
    (process_order [⟨"p1", "Widget", "", "tools", 0, 5, "pcs"⟩] []
        ⟨true, [⟨"p1", 2⟩], "ok"⟩ "u1" "o1" "t0").1.success = false ∧
    (process_order [⟨"p1", "Widget", "", "tools", 0, 5, "pcs"⟩] []
        ⟨true, [⟨"p1", 2⟩], "ok"⟩ "u1" "o1" "t0").2.2 = [] ∧
    (process_order [⟨"p1", "Widget", "", "tools", 0, 5, "pcs"⟩] []
        ⟨true, [⟨"p1", 2⟩], "ok"⟩ "u1" "o1" "t0").2.1 =
      [⟨"p1", "Widget", "", "tools", 0, 3, "pcs"⟩] := by
  have h := process_order_abort_no_rollback [⟨"p1", "Widget", "", "tools", 0, 5, "pcs"⟩] []
      ⟨true, [⟨"p1", 2⟩], "ok"⟩ "u1" "o1" "t0" (by decide) (by decide)
      (Or.inr (by norm_num [orderLoopStep, findProduct, setStockFirst]))
  refine ⟨h.1, h.2.2.1, ?_⟩
  rw [h.2.2.2]
  norm_num [orderLoopStep, findProduct, setStockFirst]

/-- C1 (counterexample): the order transaction's per-item decrement performs no
stock check: a catalog with 1 unit in stock and an extracted order for 2 units
succeeds and leaves `stock_quantity = -1` in the catalog. -/
theorem order_decrement_negative_stock :
    (process_order [⟨"p1", "Widget", "", "tools", 2, 1, "pcs"⟩] []
        ⟨true, [⟨"p1", 2⟩], "ok"⟩ "u1" "o1" "t0").1.success = true ∧
    (process_order [⟨"p1", "Widget", "", "tools", 2, 1, "pcs"⟩] []
        ⟨true, [⟨"p1", 2⟩], "ok"⟩ "u1" "o1" "t0").2.1.map Product.stock_quantity = [-1] ∧
    ∃ p ∈ (process_order [⟨"p1", "Widget", "", "tools", 2, 1, "pcs"⟩] []
        ⟨true, [⟨"p1", 2⟩], "ok"⟩ "u1" "o1" "t0").2.1, p.stock_quantity < 0 := by
  refine ⟨?_, ?_, ?_⟩ <;>
    norm_num [process_order, orderLoopStep, findProduct, setStockFirst]

/-- C1 (amended): `update_stock` preserves stock non-negativity and, whenever it
fails, leaves the catalog unmutated; the order transaction's per-item decrement
is exempt from this invariant (see the counterexample). -/
theorem update_stock_preserves_nonneg (products_data : List Product)
    (product_id : String) (delta : Int)
    (hnn : ∀ p ∈ products_data, 0 ≤ p.stock_quantity) :
    (∀ p ∈ (update_stock products_data product_id delta).2, 0 ≤ p.stock_quantity) ∧
    ((update_stock products_data product_id delta).1.success = false →
      (update_stock products_data product_id delta).2 = products_data) := by
  cases h : findProduct products_data product_id with
  | none =>
    have h2 : (update_stock products_data product_id delta).2 = products_data := by
      simp [update_stock, h]
    exact ⟨fun p hp => hnn p (h2 ▸ hp), fun _ => h2⟩
  | some product =>
    by_cases hneg : product.stock_quantity + delta < 0
    · have h2 : (update_stock products_data product_id delta).2 = products_data := by
        simp [update_stock, h, hneg]
      exact ⟨fun p hp => hnn p (h2 ▸ hp), fun _ => h2⟩
    · have h2 : (update_stock products_data product_id delta).2 =
          setStockFirst product_id (product.stock_quantity + delta) products_data := by
        simp [update_stock, h, hneg]
      constructor
      · intro p hp
        rw [h2] at hp
        rcases mem_setStockFirst hp with hmem | ⟨q, _, hq⟩
        · exact hnn p hmem
        · rw [hq]; exact le_of_not_lt hneg
      · intro hfalse
        have htrue : (update_stock products_data product_id delta).1.success = true := by
          simp [update_stock, h, hneg]
        rw [hfalse] at htrue
        cases htrue

/-- Witness for C1: on a non-negative catalog, a rejected decrement leaves the
catalog unchanged and non-negative. -/
theorem update_stock_preserves_nonneg_witness :
    (∀ p ∈ (update_stock [⟨"p1", "Widget", "", "tools", 2, 3, "pcs"⟩] "p1" (-5)).2,
      0 ≤ p.stock_quantity) ∧
    (update_stock [⟨"p1", "Widget", "", "tools", 2, 3, "pcs"⟩] "p1" (-5)).2 =
      [⟨"p1", "Widget", "", "tools", 2, 3, "pcs"⟩] := by
  have h := update_stock_preserves_nonneg [⟨"p1", "Widget", "", "tools", 2, 3, "pcs"⟩]
      "p1" (-5) (by decide)
  exact ⟨h.1, h.2 (by decide)⟩

/-- C10: every order record the order transaction appends to the ledger is
created with status "pending" and with `created_at` equal to `updated_at`
(both the creation timestamp); pre-existing ledger entries are untouched. -/
theorem process_order_creates_pending (products_data : List Product)
    (orders_data : List Order) (order_data : ExtractedOrder)
    (user_id order_id timestamp : String) :
    (∀ o ∈ (process_order products_data orders_data order_data user_id order_id timestamp).2.2,
      o ∈ orders_data ∨
      (o.status = "pending" ∧ o.created_at = timestamp ∧ o.updated_at = timestamp)) ∧
    (∀ o, (process_order products_data orders_data order_data user_id order_id
        timestamp).1.order_details = some o →
      o.status = "pending" ∧ o.created_at = o.updated_at) := by
  by_cases h1 : order_data.success = false
  · constructor
    · intro o ho
      left
      simpa [process_order, h1] using ho
    · intro o ho
      simp [process_order, h1] at ho
  · by_cases h2 : order_data.products = []
    · constructor
      · intro o ho
        left
        simpa [process_order, h1, h2] using ho
      · intro o ho
        simp [process_order, h1, h2] at ho
    · by_cases h3 : (order_data.products.foldl orderLoopStep ([], 0, products_data)).1 = [] ∨
          (order_data.products.foldl orderLoopStep ([], 0, products_data)).2.1 = 0
      · constructor
        · intro o ho
          left
          simpa [process_order, h1, h2, h3] using ho
        · intro o ho
          simp [process_order, h1, h2, h3] at ho
      · constructor
        · intro o ho
          have ho' : o ∈ orders_data ++
              [(⟨order_id, user_id,
                (order_data.products.foldl orderLoopStep ([], 0, products_data)).1,
                round2 (order_data.products.foldl orderLoopStep ([], 0, products_data)).2.1,
                "pending", timestamp, timestamp⟩ : Order)] := by
            simpa [process_order, h1, h2, h3] using ho
          rcases List.mem_append.mp ho' with hmem | hmem
          · exact Or.inl hmem
          · right
            simp only [List.mem_singleton] at hmem
            subst hmem
            exact ⟨rfl, rfl, rfl⟩
        · intro o ho
          have ho' : o = (⟨order_id, user_id,
              (order_data.products.foldl orderLoopStep ([], 0, products_data)).1,
              round2 (order_data.products.foldl orderLoopStep ([], 0, products_data)).2.1,
              "pending", timestamp, timestamp⟩ : Order) := by
            have := ho
            simp [process_order, h1, h2, h3] at this
            exact this.symm
          subst ho'
          exact ⟨rfl, rfl⟩

/-- Witness for C10: a concrete successful order is created pending with equal
timestamps. -/
theorem process_order_creates_pending_witness :
    ((process_order [⟨"p1", "Widget", "", "tools", 2, 5, "pcs"⟩] []
        ⟨true, [⟨"p1", 2⟩], "ok"⟩ "u1" "o1" "t0").2.2.map Order.status = ["pending"]) ∧
    (∀ o, (process_order [⟨"p1", "Widget", "", "tools", 2, 5, "pcs"⟩] []
        ⟨true, [⟨"p1", 2⟩], "ok"⟩ "u1" "o1" "t0").1.order_details = some o →
      o.status = "pending" ∧ o.created_at = o.updated_at) := by
  have h := process_order_creates_pending [⟨"p1", "Widget", "", "tools", 2, 5, "pcs"⟩] []
      ⟨true, [⟨"p1", 2⟩], "ok"⟩ "u1" "o1" "t0"
  refine ⟨?_, h.2⟩
  norm_num [process_order, orderLoopStep, findProduct, setStockFirst]

lemma setStatusFirst_map_items_total (order_id new_status now : String)
    (orders_data : List Order) :
    (setStatusFirst order_id new_status now orders_data).map (fun o => (o.items, o.total_amount)) =
      orders_data.map (fun o => (o.items, o.total_amount)) := by
  induction orders_data with
  | nil => rfl
  | cons a as ih =>
    by_cases h : (a.order_id == order_id) = true
    · simp [setStatusFirst, h, ih]
    · simp [setStatusFirst, h, ih]

/-- C4: an order created by the order transaction has
`total_amount = round2 (Σ quantity × unit_price)` over its item snapshots, and
neither items nor total are changed afterwards: `update_order_status` preserves
every order's items and total, and later `process_order` calls keep existing
ledger records intact. -/
theorem order_total_snapshot (products_data : List Product) (orders_data : List Order)
    (order_data : ExtractedOrder) (user_id order_id timestamp : String) :
    (∀ o, (process_order products_data orders_data order_data user_id order_id
        timestamp).1.order_details = some o →
      o.total_amount = round2 (sumQP o.items)) ∧
    (∀ oid st now,
      ((update_order_status orders_data oid st now).2).map (fun o => (o.items, o.total_amount)) =
        orders_data.map (fun o => (o.items, o.total_amount))) ∧
    (∀ o ∈ orders_data,
      o ∈ (process_order products_data orders_data order_data user_id order_id timestamp).2.2) := by
  refine ⟨?_, ?_, ?_⟩
  · intro o ho
    by_cases h1 : order_data.success = false
    · simp [process_order, h1] at ho
    · by_cases h2 : order_data.products = []
      · simp [process_order, h1, h2] at ho
      · by_cases h3 : (order_data.products.foldl orderLoopStep ([], 0, products_data)).1 = [] ∨
            (order_data.products.foldl orderLoopStep ([], 0, products_data)).2.1 = 0
        · simp [process_order, h1, h2, h3] at ho
        · have ho' : o = (⟨order_id, user_id,
              (order_data.products.foldl orderLoopStep ([], 0, products_data)).1,
              round2 (order_data.products.foldl orderLoopStep ([], 0, products_data)).2.1,
              "pending", timestamp, timestamp⟩ : Order) := by
            have := ho
            simp [process_order, h1, h2, h3] at this
            exact this.symm
          subst ho'
          have hinv := orderLoop_total_sub_sumQP order_data.products ([], 0, products_data)
          have h0 : sumQP ([] : List OrderItem) = 0 := by simp [sumQP]
          norm_num [h0] at hinv
          have heq : (order_data.products.foldl orderLoopStep ([], 0, products_data)).2.1 =
              sumQP (order_data.products.foldl orderLoopStep ([], 0, products_data)).1 := by
            linarith
          show round2 (order_data.products.foldl orderLoopStep ([], 0, products_data)).2.1 =
            round2 (sumQP (order_data.products.foldl orderLoopStep ([], 0, products_data)).1)
          rw [heq]
  · intro oid st now
    cases h : get_order_by_id orders_data oid with
    | none => simp [update_order_status, h]
    | some o =>
      by_cases hv : st ∈ valid_statuses
      · simp [update_order_status, h, hv, setStatusFirst_map_items_total]
      · simp [update_order_status, h, hv]
  · intro o ho
    by_cases h1 : order_data.success = false
    · simpa [process_order, h1] using ho
    · by_cases h2 : order_data.products = []
      · simpa [process_order, h1, h2] using ho
      · by_cases h3 : (order_data.products.foldl orderLoopStep ([], 0, products_data)).1 = [] ∨
            (order_data.products.foldl orderLoopStep ([], 0, products_data)).2.1 = 0
        · simpa [process_order, h1, h2, h3] using ho
        · simp only [process_order, h1, h2, h3]
          simp [ho]

/-- Witness for C4: a concrete created order (2 × price 2) carries
`total_amount = round2 (sumQP items)`, and a later status update leaves items
and total untouched. -/
theorem order_total_snapshot_witness :
    (∃ o, (process_order [⟨"p1", "Widget", "", "tools", 2, 5, "pcs"⟩] []
        ⟨true, [⟨"p1", 2⟩], "ok"⟩ "u1" "o1" "t0").1.order_details = some o ∧
      o.total_amount = round2 (sumQP o.items)) ∧
    ((update_order_status [⟨"o1", "u1", [⟨"p1", "Widget", 2, 2, 4⟩], 4, "pending", "t0", "t0"⟩]
        "o1" "shipped" "t9").2).map (fun o => (o.items, o.total_amount)) =
      [([⟨"p1", "Widget", 2, 2, 4⟩], 4)] := by
  constructor
  · have hdet : (process_order [⟨"p1", "Widget", "", "tools", 2, 5, "pcs"⟩] []
        ⟨true, [⟨"p1", 2⟩], "ok"⟩ "u1" "o1" "t0").1.order_details =
        some ⟨"o1", "u1", [⟨"p1", "Widget", 2, 2, 4⟩], round2 4, "pending", "t0", "t0"⟩ := by
      norm_num [process_order, orderLoopStep, findProduct, setStockFirst]
    exact ⟨_, hdet, (order_total_snapshot [⟨"p1", "Widget", "", "tools", 2, 5, "pcs"⟩] []
      ⟨true, [⟨"p1", 2⟩], "ok"⟩ "u1" "o1" "t0").1 _ hdet⟩
  · have h := (order_total_snapshot []
        [⟨"o1", "u1", [⟨"p1", "Widget", 2, 2, 4⟩], 4, "pending", "t0", "t0"⟩]
        ⟨false, [], ""⟩ "u1" "o1" "t0").2.1 "o1" "shipped" "t9"
    rw [h]
    norm_num

lemma get_order_by_id_setStatusFirst_self {orders_data : List Order} {order_id : String}
    {o : Order} (h : get_order_by_id orders_data order_id = some o)
    (new_status now : String) :
    get_order_by_id (setStatusFirst order_id new_status now orders_data) order_id =
      some { o with status := new_status, updated_at := now } := by
  induction orders_data with
  | nil => simp [get_order_by_id] at h
  | cons a as ih =>
    by_cases ha : (a.order_id == order_id) = true
    · simp only [get_order_by_id, ha, if_true] at h
      cases h
      simp [setStatusFirst, get_order_by_id, ha]
    · simp only [get_order_by_id, ha, if_false, Bool.false_eq_true] at h
      simp [setStatusFirst, get_order_by_id, ha, ih h]

lemma setStatusFirst_twice_core (order_id new_status t1 t2 : String)
    (orders_data : List Order) :
    (setStatusFirst order_id new_status t2 (setStatusFirst order_id new_status t1
        orders_data)).map orderCore =
      (setStatusFirst order_id new_status t1 orders_data).map orderCore := by
  induction orders_data with
  | nil => rfl
  | cons a as ih =>
    by_cases ha : (a.order_id == order_id) = true
    · simp [setStatusFirst, ha, orderCore]
    · simp [setStatusFirst, ha, ih]

/-- C5: `update_order_status` is idempotent for a repeated identical valid
status: after the second application every order record agrees with the state
after the first on all fields except `updated_at`; a status outside the
five-value enumeration, or an unknown order id, yields failure with the ledger
unchanged. -/
theorem update_order_status_spec (orders_data : List Order)
    (order_id new_status t1 t2 : String) :
    (∀ o, get_order_by_id orders_data order_id = some o → new_status ∈ valid_statuses →
      (update_order_status orders_data order_id new_status t1).1 = true ∧
      (update_order_status (update_order_status orders_data order_id new_status t1).2
          order_id new_status t2).1 = true ∧
      ((update_order_status (update_order_status orders_data order_id new_status t1).2
          order_id new_status t2).2).map orderCore =
        ((update_order_status orders_data order_id new_status t1).2).map orderCore) ∧
    (new_status ∉ valid_statuses →
      update_order_status orders_data order_id new_status t1 = (false, orders_data)) ∧
    (get_order_by_id orders_data order_id = none →
      update_order_status orders_data order_id new_status t1 = (false, orders_data)) := by
  refine ⟨?_, ?_, ?_⟩
  · intro o ho hv
    have h1 : (update_order_status orders_data order_id new_status t1) =
        (true, setStatusFirst order_id new_status t1 orders_data) := by
      simp [update_order_status, ho, hv]
    have hfind := get_order_by_id_setStatusFirst_self ho new_status t1
    have h2 : (update_order_status (setStatusFirst order_id new_status t1 orders_data)
        order_id new_status t2) =
        (true, setStatusFirst order_id new_status t2
          (setStatusFirst order_id new_status t1 orders_data)) := by
      simp [update_order_status, hfind, hv]
    refine ⟨by rw [h1], ?_, ?_⟩
    · rw [h1]
      simp only []
      rw [h2]
    · rw [h1]
      simp only []
      rw [h2]
      simp only []
      exact setStatusFirst_twice_core order_id new_status t1 t2 orders_data
  · intro hv
    cases h : get_order_by_id orders_data order_id with
    | none => simp [update_order_status, h]
    | some o => simp [update_order_status, h, hv]
  · intro h
    simp [update_order_status, h]

/-- Witness for C5: a concrete ledger exercising the idempotent double update,
an invalid status, and an unknown order id. -/
theorem update_order_status_spec_witness :
    ((update_order_status [⟨"o1", "u1", [], 0, "pending", "t0", "t0"⟩]
        "o1" "shipped" "t1").1 = true ∧
     ((update_order_status (update_order_status [⟨"o1", "u1", [], 0, "pending", "t0", "t0"⟩]
        "o1" "shipped" "t1").2 "o1" "shipped" "t2").2).map orderCore =
       ((update_order_status [⟨"o1", "u1", [], 0, "pending", "t0", "t0"⟩]
        "o1" "shipped" "t1").2).map orderCore) ∧
    (update_order_status [⟨"o1", "u1", [], 0, "pending", "t0", "t0"⟩]
        "o1" "refunded" "t1" = (false, [⟨"o1", "u1", [], 0, "pending", "t0", "t0"⟩])) ∧
    (update_order_status [⟨"o1", "u1", [], 0, "pending", "t0", "t0"⟩]
        "o9" "shipped" "t1" = (false, [⟨"o1", "u1", [], 0, "pending", "t0", "t0"⟩])) := by
  have h := update_order_status_spec [⟨"o1", "u1", [], 0, "pending", "t0", "t0"⟩]
      "o1" "shipped" "t1" "t2"
  have hv := update_order_status_spec [⟨"o1", "u1", [], 0, "pending", "t0", "t0"⟩]
      "o1" "refunded" "t1" "t2"
  have hn := update_order_status_spec [⟨"o1", "u1", [], 0, "pending", "t0", "t0"⟩]
      "o9" "shipped" "t1" "t2"
  have hfound : get_order_by_id [(⟨"o1", "u1", [], 0, "pending", "t0", "t0"⟩ : Order)] "o1" =
      some ⟨"o1", "u1", [], 0, "pending", "t0", "t0"⟩ := by
    simp [get_order_by_id]
  have hmain := h.1 _ hfound (by decide)
  exact ⟨⟨hmain.1, hmain.2.2⟩, hv.2.1 (by decide), hn.2.2 (by simp [get_order_by_id])⟩

/-- C6 (counterexample): user "bob" owns only "o1"; the extracted id "o2"
resolves to none of bob's orders (empty intersection with bob's orders), yet
the result is alice's order "o2", not all of bob's orders. -/
theorem status_query_foreign_order_leak :
    (∀ oid ∈ ["o2"],
      get_order_by_id (get_user_orders
        [⟨"o1", "bob", [], 0, "pending", "t0", "t0"⟩,
         ⟨"o2", "alice", [], 0, "pending", "t0", "t0"⟩] "bob") oid = none) ∧
    resolveStatusOrders
        [⟨"o1", "bob", [], 0, "pending", "t0", "t0"⟩,
         ⟨"o2", "alice", [], 0, "pending", "t0", "t0"⟩] "bob" ["o2"] =
      [⟨"o2", "alice", [], 0, "pending", "t0", "t0"⟩] ∧
    (⟨"o1", "bob", [], 0, "pending", "t0", "t0"⟩ : Order) ∉
      resolveStatusOrders
        [⟨"o1", "bob", [], 0, "pending", "t0", "t0"⟩,
         ⟨"o2", "alice", [], 0, "pending", "t0", "t0"⟩] "bob" ["o2"] := by
  refine ⟨?_, ?_, ?_⟩ <;>
    simp [resolveStatusOrders, get_order_by_id, get_user_orders, List.filterMap]

/-- C6 (amended): the fallback to all of the user's orders triggers exactly when
every extracted order id fails to resolve against the whole ledger; an id that
resolves to any ledger order (even another user's) suppresses the fallback. -/
theorem status_query_fallback (orders_data : List Order) (user_id : String)
    (order_ids : List String)
    (h : ∀ oid ∈ order_ids, get_order_by_id orders_data oid = none) :
    resolveStatusOrders orders_data user_id order_ids =
      get_user_orders orders_data user_id := by
  have hnil : order_ids.filterMap (fun oid => get_order_by_id orders_data oid) = [] := by
    rw [List.filterMap_eq_nil_iff]
    exact h
  simp [resolveStatusOrders, hnil]

/-- Witness for C6: unresolvable ids fall back to all of the user's orders. -/
theorem status_query_fallback_witness :
    resolveStatusOrders
        [⟨"o1", "bob", [], 0, "pending", "t0", "t0"⟩,
         ⟨"o2", "alice", [], 0, "pending", "t0", "t0"⟩] "bob" ["zzz"] =
      [⟨"o1", "bob", [], 0, "pending", "t0", "t0"⟩] := by
  have h := status_query_fallback
      [⟨"o1", "bob", [], 0, "pending", "t0", "t0"⟩,
       ⟨"o2", "alice", [], 0, "pending", "t0", "t0"⟩] "bob" ["zzz"]
      (by simp [get_order_by_id])
  rw [h]
  simp [get_user_orders]

lemma foldl_add_totals (orders_data : List Order) :
    ∀ a : ℚ, orders_data.foldl (fun acc o => acc + o.total_amount) a =
      a + (orders_data.map (fun o => o.total_amount)).sum := by
  induction orders_data with
  | nil => intro a; simp
  | cons o os ih =>
    intro a
    rw [List.foldl_cons, ih]
    simp [add_assoc]

lemma round2_of_mul_hundred_int {q : ℚ} {n : ℤ} (h : q * 100 = (n : ℚ)) :
    round2 q = q := by
  have hf : Int.fract ((n : ℚ)) = 0 := Int.fract_intCast n
  have hfl : ⌊((n : ℚ))⌋ = n := Int.floor_intCast n
  have hh : round2 q = ((n : ℤ) : ℚ) / 100 := by
    simp [round2, roundHalfEven, h, hf, hfl]
  rw [hh, ← h]
  ring

lemma sum_totals_int (orders_data : List Order)
    (h : ∀ o ∈ orders_data, ∃ n : ℤ, o.total_amount * 100 = (n : ℚ)) :
    ∃ n : ℤ, (orders_data.map (fun o => o.total_amount)).sum * 100 = (n : ℚ) := by
  induction orders_data with
  | nil => exact ⟨0, by simp⟩
  | cons a as ih =>
    obtain ⟨na, hna⟩ := h a (List.mem_cons_self a as)
    obtain ⟨ns, hns⟩ := ih (fun o ho => h o (List.mem_cons_of_mem _ ho))
    refine ⟨na + ns, ?_⟩
    push_cast
    rw [List.map_cons, List.sum_cons, add_mul, hna, hns]

/-- C8: whenever every order's `total_amount` is an exact 2-decimal value,
analytics revenue equals the plain sum of `total_amount` over all orders in the
ledger, and it is independent of the orders' statuses. -/
theorem analytics_revenue_all_orders (orders_data : List Order)
    (h : ∀ o ∈ orders_data, ∃ n : ℤ, o.total_amount * 100 = (n : ℚ)) :
    total_revenue orders_data = (orders_data.map (fun o => o.total_amount)).sum ∧
    ∀ f : Order → String,
      total_revenue (orders_data.map (fun o => { o with status := f o })) =
        total_revenue orders_data := by
  constructor
  · obtain ⟨n, hn⟩ := sum_totals_int orders_data h
    have hrw : total_revenue orders_data =
        round2 ((orders_data.map (fun o => o.total_amount)).sum) := by
      rw [total_revenue, foldl_add_totals]
      norm_num
    rw [hrw]
    exact round2_of_mul_hundred_int hn
  · intro f
    unfold total_revenue
    rw [List.foldl_map]

/-- Witness for C8: a pending, a cancelled and a delivered order with totals
10, 25.5 and 0 give revenue 35.5. -/
theorem analytics_revenue_all_orders_witness :
    total_revenue
      [⟨"o1", "u1", [], 10, "pending", "t0", "t0"⟩,
       ⟨"o2", "u1", [], 25.5, "cancelled", "t0", "t0"⟩,
       ⟨"o3", "u2", [], 0, "delivered", "t0", "t0"⟩] = 35.5 := by
  have h := (analytics_revenue_all_orders
      [⟨"o1", "u1", [], 10, "pending", "t0", "t0"⟩,
       ⟨"o2", "u1", [], 25.5, "cancelled", "t0", "t0"⟩,
       ⟨"o3", "u2", [], 0, "delivered", "t0", "t0"⟩]
      (by
        intro o ho
        simp only [List.mem_cons, List.not_mem_nil, or_false] at ho
        rcases ho with rfl | rfl | rfl
        · exact ⟨1000, by norm_num⟩
        · exact ⟨2550, by norm_num⟩
        · exact ⟨0, by norm_num⟩)).1
  rw [h]
  norm_num

lemma mem_insertDesc {x z : String × Int} {l : List (String × Int)} :
    z ∈ insertDesc x l ↔ z = x ∨ z ∈ l := by
  induction l with
  | nil => simp [insertDesc]
  | cons y ys ih =>
    by_cases h : y.2 < x.2
    · simp [insertDesc, h]
    · simp only [insertDesc, if_neg h, List.mem_cons, ih]
      tauto

lemma insertDesc_pairwise (g : String → Nat) (x : String × Int)
    (l : List (String × Int))
    (hl : l.Pairwise (fun a b => b.2 < a.2 ∨ (a.2 = b.2 ∧ g a.1 < g b.1)))
    (hf : ∀ y ∈ l, g y.1 < g x.1) :
    (insertDesc x l).Pairwise (fun a b => b.2 < a.2 ∨ (a.2 = b.2 ∧ g a.1 < g b.1)) := by
  induction l with
  | nil => simp [insertDesc]
  | cons y ys ih =>
    rcases List.pairwise_cons.mp hl with ⟨hy, hys⟩
    by_cases h : y.2 < x.2
    · simp only [insertDesc, if_pos h]
      refine List.pairwise_cons.mpr ⟨?_, hl⟩
      intro z hz
      rcases List.mem_cons.mp hz with rfl | hzys
      · exact Or.inl h
      · rcases hy z hzys with hlt | ⟨heq, _⟩
        · exact Or.inl (lt_trans hlt h)
        · exact Or.inl (heq ▸ h)
    · simp only [insertDesc, if_neg h]
      refine List.pairwise_cons.mpr
        ⟨?_, ih hys (fun z hz => hf z (List.mem_cons_of_mem _ hz))⟩
      intro z hz
      rcases mem_insertDesc.mp hz with rfl | hzys
      · rcases lt_or_eq_of_le (not_lt.mp h) with hlt | heq
        · exact Or.inl hlt
        · exact Or.inr ⟨heq.symm, hf y (List.mem_cons_self y ys)⟩
      · exact hy z hzys

lemma sortDesc_pairwise_mem (g : String → Nat) (l : List (String × Int)) :
    ∀ acc : List (String × Int),
      acc.Pairwise (fun a b => b.2 < a.2 ∨ (a.2 = b.2 ∧ g a.1 < g b.1)) →
      (∀ y ∈ acc, ∀ x ∈ l, g y.1 < g x.1) →
      l.Pairwise (fun a b => g a.1 < g b.1) →
      (l.foldl (fun acc x => insertDesc x acc) acc).Pairwise
          (fun a b => b.2 < a.2 ∨ (a.2 = b.2 ∧ g a.1 < g b.1)) ∧
      ∀ z ∈ l.foldl (fun acc x => insertDesc x acc) acc, z ∈ acc ∨ z ∈ l := by
  induction l with
  | nil =>
    intro acc hacc _ _
    exact ⟨hacc, fun z hz => Or.inl hz⟩
  | cons x xs ih =>
    intro acc hacc hcross hl
    rcases List.pairwise_cons.mp hl with ⟨hx, hxs⟩
    have h1 : (insertDesc x acc).Pairwise
        (fun a b => b.2 < a.2 ∨ (a.2 = b.2 ∧ g a.1 < g b.1)) :=
      insertDesc_pairwise g x acc hacc
        (fun y hy => hcross y hy x (List.mem_cons_self x xs))
    have h2 : ∀ y ∈ insertDesc x acc, ∀ z ∈ xs, g y.1 < g z.1 := by
      intro y hy z hz
      rcases mem_insertDesc.mp hy with rfl | hyacc
      · exact hx z hz
      · exact hcross y hyacc z (List.mem_cons_of_mem _ hz)
    obtain ⟨hp, hm⟩ := ih (insertDesc x acc) h1 h2 hxs
    refine ⟨hp, ?_⟩
    intro z hz
    rcases hm z hz with hzi | hzxs
    · rcases mem_insertDesc.mp hzi with rfl | hzacc
      · exact Or.inr (List.mem_cons_self z xs)
      · exact Or.inl hzacc
    · exact Or.inr (List.mem_cons_of_mem _ hzxs)

lemma pairwise_idxOfStr (K : List String) (hnd : K.Nodup) :
    K.Pairwise (fun a b => idxOfStr a K < idxOfStr b K) := by
  induction K with
  | nil => simp
  | cons k ks ih =>
    rcases List.nodup_cons.mp hnd with ⟨hk, hks⟩
    refine List.pairwise_cons.mpr ⟨?_, ?_⟩
    · intro b hb
      have hbk : (k == b) = false := by
        simp only [beq_eq_false_iff_ne, ne_eq]
        intro hkb
        exact hk (hkb ▸ hb)
      simp only [idxOfStr, beq_self_eq_true, if_true, hbk, Bool.false_eq_true, if_false]
      omega
    · refine List.Pairwise.imp_of_mem ?_ (ih hks)
      intro a b ha hb hab
      have hka : (k == a) = false := by
        simp only [beq_eq_false_iff_ne, ne_eq]
        intro h
        exact hk (h ▸ ha)
      have hkb : (k == b) = false := by
        simp only [beq_eq_false_iff_ne, ne_eq]
        intro h
        exact hk (h ▸ hb)
      simp only [idxOfStr, hka, hkb, Bool.false_eq_true, if_false]
      omega

lemma assocSum_cons (p : String) (q : Int) (rest : List (String × Int)) (pid : String) :
    assocSum ((p, q) :: rest) pid =
      (if (p == pid) = true then q else 0) + assocSum rest pid := by
  by_cases h : (p == pid) = true <;> simp [assocSum, List.filter_cons, h]

lemma addSale_keys (product_id : String) (quantity : Int) (acc : List (String × Int)) :
    (addSale product_id quantity acc).map (fun x => x.1) =
      if product_id ∈ acc.map (fun x => x.1) then acc.map (fun x => x.1)
      else acc.map (fun x => x.1) ++ [product_id] := by
  induction acc with
  | nil => simp [addSale]
  | cons a rest ih =>
    obtain ⟨p, q⟩ := a
    by_cases hp : (p == product_id) = true
    · have hpe : p = product_id := by simpa using hp
      simp [addSale, hp, hpe]
    · have hpe : p ≠ product_id := by simpa using hp
      simp only [addSale, hp, Bool.false_eq_true, if_false, List.map_cons]
      rw [ih]
      by_cases hmem : product_id ∈ rest.map (fun x => x.1)
      · simp [hmem, hpe]
      · simp [hmem, hpe, Ne.symm hpe]

lemma assocSum_addSale (product_id pid' : String) (quantity : Int)
    (acc : List (String × Int)) :
    assocSum (addSale product_id quantity acc) pid' =
      assocSum acc pid' + (if (product_id == pid') = true then quantity else 0) := by
  induction acc with
  | nil =>
    by_cases h : (product_id == pid') = true <;>
      simp [addSale, assocSum, List.filter_cons, h]
  | cons a rest ih =>
    obtain ⟨p, q⟩ := a
    by_cases hp : (p == product_id) = true
    · have hpe : p = product_id := by simpa using hp
      subst hpe
      simp only [addSale, beq_self_eq_true, if_true]
      rw [assocSum_cons, assocSum_cons]
      by_cases h' : (p == pid') = true
      · simp only [h', if_true]
        ring
      · simp only [h', Bool.false_eq_true, if_false]
        have : (p == pid') = false := by simpa using h'
        omega
    · simp only [addSale, hp, Bool.false_eq_true, if_false]
      rw [assocSum_cons, assocSum_cons, ih]
      ring

lemma addSale_keys_nodup (product_id : String) (quantity : Int)
    (acc : List (String × Int)) (h : (acc.map (fun x => x.1)).Nodup) :
    ((addSale product_id quantity acc).map (fun x => x.1)).Nodup := by
  rw [addSale_keys]
  by_cases hmem : product_id ∈ acc.map (fun x => x.1)
  · simpa [hmem] using h
  · simp [hmem, List.nodup_append, h]

lemma assocSum_eq_zero_of_not_mem {l : List (String × Int)} {pid : String}
    (h : pid ∉ l.map (fun x => x.1)) : assocSum l pid = 0 := by
  induction l with
  | nil => simp [assocSum]
  | cons a rest ih =>
    obtain ⟨p, q⟩ := a
    simp only [List.map_cons, List.mem_cons] at h
    push_neg at h
    have hp : (p == pid) = false := by
      simp only [beq_eq_false_iff_ne, ne_eq]
      intro he
      exact h.1 he.symm
    rw [assocSum_cons]
    simp [hp, ih h.2]

lemma mem_assoc_value {l : List (String × Int)} (hnd : (l.map (fun x => x.1)).Nodup)
    {pid : String} {q : Int} (h : (pid, q) ∈ l) : assocSum l pid = q := by
  induction l with
  | nil => simp at h
  | cons a rest ih =>
    obtain ⟨p, q0⟩ := a
    simp only [List.map_cons, List.nodup_cons] at hnd
    rcases List.mem_cons.mp h with heq | hmem
    · have hp : p = pid := (congrArg Prod.fst heq).symm
      have hq : q0 = q := (congrArg Prod.snd heq).symm
      subst hp
      subst hq
      rw [assocSum_cons]
      simp [assocSum_eq_zero_of_not_mem hnd.1]
    · have hpidmem : pid ∈ rest.map (fun x => x.1) :=
        List.mem_map.mpr ⟨(pid, q), hmem, rfl⟩
      have hp : (p == pid) = false := by
        simp only [beq_eq_false_iff_ne, ne_eq]
        intro he
        exact hnd.1 (he ▸ hpidmem)
      rw [assocSum_cons]
      simp [hp, ih hnd.2 hmem]

lemma fold_addSale_keys (items : List OrderItem) :
    ∀ acc : List (String × Int),
      ((items.foldl (fun a it => addSale it.product_id it.quantity a) acc).map
          (fun x => x.1)) =
        items.foldl (fun ks it => if it.product_id ∈ ks then ks else ks ++ [it.product_id])
          (acc.map (fun x => x.1)) := by
  induction items with
  | nil => intro acc; rfl
  | cons it its ih =>
    intro acc
    rw [List.foldl_cons, List.foldl_cons, ih, addSale_keys]

lemma fold_addSale_assocSum (items : List OrderItem) :
    ∀ (acc : List (String × Int)) (pid : String),
      assocSum (items.foldl (fun a it => addSale it.product_id it.quantity a) acc) pid =
        assocSum acc pid +
          ((items.filter (fun it => it.product_id == pid)).map (fun it => it.quantity)).sum := by
  induction items with
  | nil => intro acc pid; simp
  | cons it its ih =>
    intro acc pid
    rw [List.foldl_cons, ih, assocSum_addSale]
    by_cases h : (it.product_id == pid) = true
    · simp only [List.filter_cons, h, if_true, List.map_cons, List.sum_cons]
      ring
    · simp only [List.filter_cons, h, Bool.false_eq_true, if_false]
      omega

lemma fold_addSale_keys_nodup (items : List OrderItem) :
    ∀ acc : List (String × Int), (acc.map (fun x => x.1)).Nodup →
      ((items.foldl (fun a it => addSale it.product_id it.quantity a) acc).map
        (fun x => x.1)).Nodup := by
  induction items with
  | nil => intro acc h; exact h
  | cons it its ih =>
    intro acc h
    rw [List.foldl_cons]
    exact ih _ (addSale_keys_nodup _ _ _ h)

lemma product_sales_eq_flat (orders_data : List Order) :
    product_sales orders_data =
      (allItems orders_data).foldl (fun a it => addSale it.product_id it.quantity a) [] := by
  suffices h : ∀ (os : List Order) (acc : List (String × Int)),
      os.foldl (fun acc o =>
        o.items.foldl (fun a it => addSale it.product_id it.quantity a) acc) acc =
      ((os.map (fun o => o.items)).flatten).foldl
        (fun a it => addSale it.product_id it.quantity a) acc by
    simpa [product_sales, allItems] using h orders_data []
  intro os
  induction os with
  | nil => intro acc; simp
  | cons o os ih =>
    intro acc
    simp [List.foldl_append, ih]

lemma product_sales_keys (orders_data : List Order) :
    (product_sales orders_data).map (fun x => x.1) =
      firstAppearanceKeys (allItemPids orders_data) := by
  rw [product_sales_eq_flat, fold_addSale_keys]
  simp [firstAppearanceKeys, allItemPids, List.foldl_map]

lemma product_sales_keys_nodup (orders_data : List Order) :
    ((product_sales orders_data).map (fun x => x.1)).Nodup := by
  rw [product_sales_eq_flat]
  exact fold_addSale_keys_nodup _ [] (by simp)

lemma product_sales_value (orders_data : List Order) {pid : String} {q : Int}
    (h : (pid, q) ∈ product_sales orders_data) :
    q = totalQtySold orders_data pid := by
  have hsum : assocSum (product_sales orders_data) pid = totalQtySold orders_data pid := by
    rw [product_sales_eq_flat, fold_addSale_assocSum]
    simp [assocSum, totalQtySold]
  have hval : assocSum (product_sales orders_data) pid = q :=
    mem_assoc_value (product_sales_keys_nodup orders_data) h
  rw [← hval, hsum]

lemma pairwise_filterMap {α β : Type} (f : α → Option β) (R : α → α → Prop)
    (S : β → β → Prop)
    (hf : ∀ a b a' b', f a = some a' → f b = some b' → R a b → S a' b') :
    ∀ l : List α, l.Pairwise R → (l.filterMap f).Pairwise S := by
  intro l
  induction l with
  | nil => intro _; simp
  | cons a l' ih =>
    intro hl
    rcases List.pairwise_cons.mp hl with ⟨hr, hl'⟩
    cases hfa : f a with
    | none => simpa [List.filterMap_cons, hfa] using ih hl'
    | some a' =>
      rw [List.filterMap_cons, hfa]
      refine List.pairwise_cons.mpr ⟨?_, ih hl'⟩
      intro b' hb'
      obtain ⟨b, hbmem, hfb⟩ := List.mem_filterMap.mp hb'
      exact hf a b a' b' hfa hfb (hr b hbmem)

lemma top_product_fields (products_data : List Product) (pq : String × Int)
    (e : TopProduct)
    (he : (match findProduct products_data pq.1 with
           | none => none
           | some p => some (⟨pq.1, p.name, pq.2, (pq.2 : ℚ) * p.price⟩ : TopProduct)) =
          some e) :
    e.product_id = pq.1 ∧ e.quantity_sold = pq.2 ∧
    ∃ p, findProduct products_data pq.1 = some p ∧ e.name = p.name ∧
      e.revenue = (pq.2 : ℚ) * p.price := by
  cases hp : findProduct products_data pq.1 with
  | none => rw [hp] at he; cases he
  | some p =>
    rw [hp] at he
    cases he
    exact ⟨rfl, rfl, p, rfl, rfl, rfl⟩

/-- C7 (counterexample): two products tied at quantity 1, with "p_b" first in
the orders' line items but "p_a" first in the Catalog: the top-sellers list
ranks "p_b" before "p_a", so ties are not broken by Catalog iteration order. -/
theorem top_sellers_tie_not_catalog_order :
    (top_selling_products
        [⟨"p_a", "Alpha", "", "cat", 1, 0, "u"⟩, ⟨"p_b", "Beta", "", "cat", 1, 0, "u"⟩]
        [⟨"o1", "u1", [⟨"p_b", "Beta", 1, 1, 1⟩, ⟨"p_a", "Alpha", 1, 1, 1⟩], 2,
          "pending", "t0", "t0"⟩]).map (fun e => e.product_id) = ["p_b", "p_a"] ∧
    (["p_b", "p_a"] : List String) ≠ ["p_a", "p_b"] := by
  constructor
  · decide
  · decide

/-- C7 (amended): the top-sellers list has at most 5 entries, is ordered by
total quantity sold descending with ties broken by order of first appearance
among the ledger's line items, and each entry reports a product still in the
catalog together with its true total quantity sold. -/
theorem top_sellers_ranking (products_data : List Product) (orders_data : List Order) :
    (top_selling_products products_data orders_data).length ≤ 5 ∧
    (top_selling_products products_data orders_data).Pairwise (fun x y =>
      y.quantity_sold < x.quantity_sold ∨
      (x.quantity_sold = y.quantity_sold ∧
        faIdx orders_data x.product_id < faIdx orders_data y.product_id)) ∧
    ∀ e ∈ top_selling_products products_data orders_data,
      (∃ p, findProduct products_data e.product_id = some p ∧ e.name = p.name ∧
        e.revenue = (e.quantity_sold : ℚ) * p.price) ∧
      e.quantity_sold = totalQtySold orders_data e.product_id := by
  have hK : (product_sales orders_data).map (fun x => x.1) =
      firstAppearanceKeys (allItemPids orders_data) := product_sales_keys orders_data
  have hKnd : (firstAppearanceKeys (allItemPids orders_data)).Nodup := by
    rw [← hK]
    exact product_sales_keys_nodup orders_data
  have hKpw := pairwise_idxOfStr _ hKnd
  have hps : (product_sales orders_data).Pairwise
      (fun a b => faIdx orders_data a.1 < faIdx orders_data b.1) := by
    rw [← hK] at hKpw
    rw [List.pairwise_map] at hKpw
    simpa [faIdx, hK] using hKpw
  have hsorted := sortDesc_pairwise_mem
      (fun pid => idxOfStr pid (firstAppearanceKeys (allItemPids orders_data)))
      (product_sales orders_data) [] (by simp) (by simp)
      (by simpa [faIdx] using hps)
  have htake : ((sortDesc (product_sales orders_data)).take 5).Pairwise
      (fun a b => b.2 < a.2 ∨ (a.2 = b.2 ∧
        idxOfStr a.1 (firstAppearanceKeys (allItemPids orders_data)) <
        idxOfStr b.1 (firstAppearanceKeys (allItemPids orders_data)))) :=
    List.Pairwise.sublist (List.take_sublist 5 _) hsorted.1
  refine ⟨?_, ?_, ?_⟩
  · calc (top_selling_products products_data orders_data).length
        ≤ ((sortDesc (product_sales orders_data)).take 5).length :=
          List.length_filterMap_le _ _
      _ ≤ 5 := List.length_take_le 5 _
  · refine pairwise_filterMap _ _ _ ?_ _ htake
    intro a b a' b' hfa hfb hab
    obtain ⟨ha1, ha2, _⟩ := top_product_fields products_data a a' hfa
    obtain ⟨hb1, hb2, _⟩ := top_product_fields products_data b b' hfb
    rw [ha1, ha2, hb1, hb2]
    simpa [faIdx] using hab
  · intro e he
    obtain ⟨pq, hpqmem, hpqf⟩ := List.mem_filterMap.mp he
    obtain ⟨hid, hqs, p, hp, hname, hrev⟩ := top_product_fields products_data pq e hpqf
    constructor
    · refine ⟨p, ?_, hname, ?_⟩
      · rw [hid]
        exact hp
      · rw [hqs]
        exact hrev
    · have h2 : pq ∈ sortDesc (product_sales orders_data) :=
        List.mem_of_mem_take hpqmem
      have hmem_ps : pq ∈ product_sales orders_data := by
        rcases hsorted.2 pq (by simpa [sortDesc] using h2) with h | h
        · simp at h
        · exact h
      obtain ⟨pid, q⟩ := pq
      rw [hqs, hid]
      exact product_sales_value orders_data hmem_ps

/-- Witness for C7: a single product sold twice appears as the sole top seller
with its true total quantity. -/
theorem top_sellers_ranking_witness :
    (top_selling_products [⟨"pa", "A", "", "c", 3, 0, "u"⟩]
        [⟨"o1", "u1", [⟨"pa", "A", 2, 3, 6⟩], 6, "pending", "t0", "t0"⟩]).length ≤ 5 ∧
    (⟨"pa", "A", 2, 6⟩ : TopProduct).quantity_sold =
      totalQtySold [⟨"o1", "u1", [⟨"pa", "A", 2, 3, 6⟩], 6, "pending", "t0", "t0"⟩] "pa" := by
  have t := top_sellers_ranking [⟨"pa", "A", "", "c", 3, 0, "u"⟩]
      [⟨"o1", "u1", [⟨"pa", "A", 2, 3, 6⟩], 6, "pending", "t0", "t0"⟩]
  have hmem : (⟨"pa", "A", 2, 6⟩ : TopProduct) ∈
      top_selling_products [⟨"pa", "A", "", "c", 3, 0, "u"⟩]
        [⟨"o1", "u1", [⟨"pa", "A", 2, 3, 6⟩], 6, "pending", "t0", "t0"⟩] := by
    norm_num [top_selling_products, product_sales, addSale, sortDesc, insertDesc,
      findProduct, List.filterMap]
  exact ⟨t.1, (t.2.2 _ hmem).2⟩

/-- C9: the extraction chain tries the stages in order: a raw text that
`json_loads` parses directly is returned as-is; otherwise, when the raw text
contains a braced substring (first brace to last closing brace, greedy across
newlines) that parses, exactly that object is returned; only when both stages
fail does the chain yield none, handing control to the caller's deterministic
fallback. -/
theorem extract_json_chain :
    (∀ raw v, json_loads raw = some v → extract_json raw = some v) ∧
    (∀ raw sub v, json_loads raw = none → bracedSubstring raw = some sub →
      json_loads sub = some v → extract_json raw = some v) ∧
    (∀ raw, json_loads raw = none → bracedSubstring raw = none →
      extract_json raw = none) ∧
    (∀ raw sub, json_loads raw = none → bracedSubstring raw = some sub →
      json_loads sub = none → extract_json raw = none) := by
  refine ⟨?_, ?_, ?_, ?_⟩
  · intro raw v h
    simp [extract_json, h]
  · intro raw sub v h1 h2 h3
    simp [extract_json, h1, h2, h3]
  · intro raw h1 h2
    simp [extract_json, h1, h2]
  · intro raw sub h1 h2 h3
    simp [extract_json, h1, h2, h3]

/-- Witness for C9: the three behaviours of the spec on its own examples —
direct parse, embedded-object extraction (with the exact greedy substring), and
double failure. -/
theorem extract_json_chain_witness :
    extract_json ("\x7b\"success\": true\x7d".toList) =
      some (Json.obj [("success".toList, Json.bool true)]) ∧
    extract_json ("Sure! Here you go: \x7b\"success\": true\x7d Thanks.".toList) =
      some (Json.obj [("success".toList, Json.bool true)]) ∧
    bracedSubstring ("Sure! Here you go: \x7b\"success\": true\x7d Thanks.".toList) =
      some ("\x7b\"success\": true\x7d".toList) ∧
    extract_json ("no structured answer".toList) = none := by
  refine ⟨?_, ?_, ?_, ?_⟩
  · exact extract_json_chain.1 _ _ (by rfl)
  · exact extract_json_chain.2.1 _ ("\x7b\"success\": true\x7d".toList) _
      (by rfl) (by rfl) (by rfl)
  · rfl
  · exact extract_json_chain.2.2.1 _ (by rfl) (by rfl)
